import Mathlib

/-!
# MyUrls short-link lifecycle engine: a shallow embedding

This file embeds the short-link lifecycle engine of `main.go` (a URL
shortener backed by Redis) and proves properties of its create, resolve
and renewal paths.

The Redis store is modelled as a pair of total functions from keys to an
optional string value and an optional remaining TTL; each Redis command
used by the program (`get`, `set`, `mset`, `expire`, `ttl`, `setnx`) is
modelled with its per-command semantics.  The program reads every `get`
through `redis.String`, which collapses a missing key and an empty value
to the empty string, so the model provides `getS` for that read.

Randomness and time are external inputs: `generate` receives the
nanosecond timestamp it was seeded with as an explicit argument, and the
create path receives the sequence of timestamps of its `generate` calls.
-/

set_option maxRecDepth 40000

/-- The alphabet used for generated short keys (62 symbols). -/
def letterBytes : String := "0123456789abcdefghijklmnopqrstuvwxyzABCDEFGHIJKLMNOPQRSTUVWXYZ"

/-- Default length of a generated short key. -/
def defaultShortUrlLen : Nat := 6

/-- Minimum accepted short-key length. -/
def minShortUrlLen : Nat := 1

/-- Maximum accepted short-key length. -/
def maxShortUrlLen : Nat := 20

/-- Default TTL for a short URL, in days. -/
def defaultExpire : Int := 180

/-- Key namespace for renewal locks (`defaultLockPrefix` in the source). -/
def lockPref : String := "myurls:lock:"

/-- Key namespace for the MD5 dedup index (`defaultMd5Prefix` in the source). -/
def md5Pref : String := "myurls:md5:"

/-- Renewal window length, in days. -/
def defaultRenewalDay : Int := 1

/-- Number of seconds in a day. -/
def secondsPerDay : Int := 24 * 3600

/-- The Redis key space: each key holds an optional string value and, when
the value is present, an optional remaining TTL in seconds (`none` means the
key never expires). -/
structure Store where
  val : String → Option String
  exp : String → Option Int

/-- The empty store. -/
def Store.empty : Store := ⟨fun _ => none, fun _ => none⟩

/-- `redis.String(Do("get", k))` with the error discarded: a missing key
reads as the empty string. -/
def Store.getS (s : Store) (k : String) : String := (s.val k).getD ""

/-- Redis `SET`: stores the value and removes any TTL the key carried. -/
def Store.set (s : Store) (k v : String) : Store :=
  ⟨fun q => if q = k then some v else s.val q,
   fun q => if q = k then none else s.exp q⟩

/-- Redis `DEL` (used only to model `EXPIRE` with a non-positive TTL). -/
def Store.del (s : Store) (k : String) : Store :=
  ⟨fun q => if q = k then none else s.val q,
   fun q => if q = k then none else s.exp q⟩

/-- Redis `EXPIRE k t`: a no-op on a missing key; deletes the key when
`t ≤ 0`; otherwise sets the remaining TTL to `t` and keeps the value. -/
def Store.expire (s : Store) (k : String) (t : Int) : Store :=
  if (s.val k).isSome then
    if t ≤ 0 then s.del k
    else ⟨s.val, fun q => if q = k then some t else s.exp q⟩
  else s

/-- Redis `MSET k1 v1 k2 v2`, as two stores in order. -/
def Store.mset (s : Store) (k1 v1 k2 v2 : String) : Store :=
  (s.set k1 v1).set k2 v2

/-- Redis `TTL k`: `-2` for a missing key, `-1` for a key with no
expiration, otherwise the remaining TTL. -/
def Store.ttlCmd (s : Store) (k : String) : Int :=
  match s.val k with
  | none => -2
  | some _ =>
    match s.exp k with
    | none => -1
    | some t => t

/-- Redis `SETNX k v`: returns `1` and stores the value if the key was
absent, else returns `0` and leaves the store unchanged. -/
def Store.setnx (s : Store) (k v : String) : Store × Nat :=
  if (s.val k).isSome then (s, 0) else (s.set k v, 1)

/-- One step of the pseudo-random source backing `rand.Intn`.  The Go
program builds a fresh `rand.New(rand.NewSource(time.Now().UnixNano()))`
on every `generate` call; the engine's behaviour depends only on this
being a deterministic function of the seed, modelled here by a 64-bit
linear congruential step. -/
def lcgStep (s : Nat) : Nat :=
  (6364136223846793005 * s + 1442695040888963407) % 18446744073709551616

/-- The `i`-th output of the pseudo-random source seeded with `seed`. -/
def randSeq (seed : Nat) : Nat → Nat
  | 0 => lcgStep seed
  | n + 1 => lcgStep (randSeq seed n)

/-- `generate(bits)` from the source: a string of `bits` characters, each
indexed into `letterBytes` by the pseudo-random source.  The source is
seeded inside the call from the current nanosecond timestamp, passed here
as `seed`. -/
def generate (bits : Nat) (seed : Nat) : String :=
  String.mk ((List.range bits).map fun i =>
    letterBytes.data.getD (randSeq seed i % letterBytes.data.length) 'A')

/-- The collision-retry loop of `longToShort`: walk the candidate keys in
order, return the first whose `get` reads empty; `last` carries the most
recent assignment to `shortKey` (initially the zero value `""`), which is
the result when every candidate collides. -/
def collisionLoop (s : Store) : List String → String → String
  | [], last => last
  | c :: rest, _ => if s.getS c = "" then c else collisionLoop s rest c

/-- `renew(shortKey)` from the source: take the per-key renewal lock with
`SETNX`; if newly acquired, give the lock a one-day TTL, then extend the
record's TTL by one day on top of its current remaining TTL unless the
record has no expiration (`TTL = -1`). -/
def renew (s : Store) (shortKey : String) : Store :=
  let lockKey := lockPref ++ shortKey
  let sl := s.setnx lockKey "1"
  if sl.2 = 1 then
    let s2 := sl.1.expire lockKey (defaultRenewalDay * secondsPerDay)
    let t := s2.ttlCmd shortKey
    if t ≠ -1 then s2.expire shortKey (t + defaultRenewalDay * secondsPerDay)
    else s2
  else sl.1

/-- `shortToLong(shortKey)` from the source: read the record; when the
read is non-empty, renew the key as a side effect and return the value. -/
def shortToLong (s : Store) (shortKey : String) : Store × String :=
  let longUrl := s.getS shortKey
  if longUrl ≠ "" then (renew s shortKey, longUrl) else (s, longUrl)

/-- UTF-8 encoding of one character, as a list of byte values. -/
def utf8Bytes (c : Char) : List Nat :=
  let n := c.toNat
  if n < 128 then [n]
  else if n < 2048 then [192 + n / 64, 128 + n % 64]
  else if n < 65536 then [224 + n / 4096, 128 + (n / 64) % 64, 128 + n % 64]
  else [240 + n / 262144, 128 + (n / 4096) % 64, 128 + (n / 64) % 64,
        128 + n % 64]

/-- The bytes of a string, as Go's `[]byte(s)` conversion produces them. -/
def strBytes (s : String) : List Nat := (s.data.map utf8Bytes).flatten

/-- The 64 MD5 round constants `T[i] = floor(2^32 * abs(sin(i+1)))`. -/
def md5K : List Nat :=
  [0xd76aa478, 0xe8c7b756, 0x242070db, 0xc1bdceee,
   0xf57c0faf, 0x4787c62a, 0xa8304613, 0xfd469501,
   0x698098d8, 0x8b44f7af, 0xffff5bb1, 0x895cd7be,
   0x6b901122, 0xfd987193, 0xa679438e, 0x49b40821,
   0xf61e2562, 0xc040b340, 0x265e5a51, 0xe9b6c7aa,
   0xd62f105d, 0x02441453, 0xd8a1e681, 0xe7d3fbc8,
   0x21e1cde6, 0xc33707d6, 0xf4d50d87, 0x455a14ed,
   0xa9e3e905, 0xfcefa3f8, 0x676f02d9, 0x8d2a4c8a,
   0xfffa3942, 0x8771f681, 0x6d9d6122, 0xfde5380c,
   0xa4beea44, 0x4bdecfa9, 0xf6bb4b60, 0xbebfbc70,
   0x289b7ec6, 0xeaa127fa, 0xd4ef3085, 0x04881d05,
   0xd9d4d039, 0xe6db99e5, 0x1fa27cf8, 0xc4ac5665,
   0xf4292244, 0x432aff97, 0xab9423a7, 0xfc93a039,
   0x655b59c3, 0x8f0ccc92, 0xffeff47d, 0x85845dd1,
   0x6fa87e4f, 0xfe2ce6e0, 0xa3014314, 0x4e0811a1,
   0xf7537e82, 0xbd3af235, 0x2ad7d2bb, 0xeb86d391]

/-- The per-round left-rotation amounts of MD5. -/
def md5S : List Nat :=
  [7, 12, 17, 22, 7, 12, 17, 22, 7, 12, 17, 22, 7, 12, 17, 22,
   5, 9, 14, 20, 5, 9, 14, 20, 5, 9, 14, 20, 5, 9, 14, 20,
   4, 11, 16, 23, 4, 11, 16, 23, 4, 11, 16, 23, 4, 11, 16, 23,
   6, 10, 15, 21, 6, 10, 15, 21, 6, 10, 15, 21, 6, 10, 15, 21]

/-- 32-bit left rotation (arguments in range: `x < 2^32`, `0 < n < 32`). -/
def rotl32 (x n : Nat) : Nat := (x * 2 ^ n + x / 2 ^ (32 - n)) % 4294967296

/-- The MD5 nonlinear function of round `i`. -/
def md5F (i b c d : Nat) : Nat :=
  if i < 16 then (b &&& c) ||| ((4294967295 ^^^ b) &&& d)
  else if i < 32 then (d &&& b) ||| ((4294967295 ^^^ d) &&& c)
  else if i < 48 then b ^^^ c ^^^ d
  else c ^^^ (b ||| (4294967295 ^^^ d))

/-- The message-word index read in round `i` of MD5. -/
def md5G (i : Nat) : Nat :=
  if i < 16 then i
  else if i < 32 then (5 * i + 1) % 16
  else if i < 48 then (3 * i + 5) % 16
  else (7 * i) % 16

/-- The little-endian 32-bit word `j` of a 64-byte block. -/
def md5Word (block : List Nat) (j : Nat) : Nat :=
  block.getD (4 * j) 0 + 256 * block.getD (4 * j + 1) 0 +
    65536 * block.getD (4 * j + 2) 0 + 16777216 * block.getD (4 * j + 3) 0

/-- One MD5 round applied to the state `(a, b, c, d)`. -/
def md5Round (block : List Nat) (st : Nat × Nat × Nat × Nat) (i : Nat) :
    Nat × Nat × Nat × Nat :=
  let (a, b, c, d) := st
  let f := (md5F i b c d + a + md5K.getD i 0 + md5Word block (md5G i)) %
    4294967296
  (d, (b + rotl32 f (md5S.getD i 0)) % 4294967296, b, c)

/-- Process one 64-byte block of MD5. -/
def md5Block (st : Nat × Nat × Nat × Nat) (block : List Nat) :
    Nat × Nat × Nat × Nat :=
  let r := (List.range 64).foldl (md5Round block) st
  ((st.1 + r.1) % 4294967296, (st.2.1 + r.2.1) % 4294967296,
   (st.2.2.1 + r.2.2.1) % 4294967296, (st.2.2.2 + r.2.2.2) % 4294967296)

/-- MD5 padding: a `0x80` byte, zeros to 56 mod 64, then the bit length
as a little-endian 64-bit quantity. -/
def md5Pad (msg : List Nat) : List Nat :=
  let len := msg.length
  let zeros := (64 + 56 - (len + 1) % 64) % 64
  msg ++ [128] ++ List.replicate zeros 0 ++
    (List.range 8).map fun i => (8 * len / 256 ^ i) % 256

/-- Fold the MD5 compression function over `n` 64-byte blocks. -/
def md5Blocks (st : Nat × Nat × Nat × Nat) (l : List Nat) :
    Nat → Nat × Nat × Nat × Nat
  | 0 => st
  | n + 1 => md5Blocks (md5Block st (l.take 64)) (l.drop 64) n

/-- The 16-byte MD5 digest of a byte sequence. -/
def md5Digest (msg : List Nat) : List Nat :=
  let padded := md5Pad msg
  let st := md5Blocks (1732584193, 4023233417, 2562383102, 271733878)
    padded (padded.length / 64)
  ([st.1, st.2.1, st.2.2.1, st.2.2.2].map fun w =>
    (List.range 4).map fun i => (w / 256 ^ i) % 256).flatten

/-- One lowercase hex digit. -/
def hexDigit (n : Nat) : Char := "0123456789abcdef".data.getD n '0'

/-- Lowercase hex encoding of a byte sequence, as Go's
`hex.EncodeToString`. -/
def hexEncode (bs : List Nat) : String :=
  String.mk ((bs.map fun b => [hexDigit (b / 16), hexDigit (b % 16)]).flatten)

/-- `hex.EncodeToString(md5.Sum([]byte(msg))[:])` from the source. -/
def md5Hex (msg : String) : String := hexEncode (md5Digest (strBytes msg))

/-- `longToShort(longUrl, ttl, shortUrlLen)` from the source.  `times i`
is the nanosecond timestamp of the `i`-th `generate` call. -/
def longToShort (s : Store) (times : Nat → Nat) (longUrl : String)
    (ttl : Int) (shortUrlLen : Nat) : Store × String :=
  let md5Key := md5Pref ++ md5Hex longUrl
  let existsKey := s.getS md5Key
  if existsKey ≠ "" then
    (s.expire existsKey ttl, existsKey)
  else
    let shortKey := collisionLoop s
      [generate shortUrlLen (times 0), generate shortUrlLen (times 1),
       generate shortUrlLen (times 2)] ""
    if shortKey ≠ "" then
      let s1 := s.mset shortKey longUrl md5Key shortKey
      let s2 := s1.expire shortKey ttl
      let s3 := s2.expire md5Key secondsPerDay
      (s3, shortKey)
    else (s, shortKey)

/-- Position of a character in the standard base64 alphabet
(`A-Z`, `a-z`, `0-9`, `+`, `/`); `none` for every other character,
including the padding character. -/
def b64Index (c : Char) : Option Nat :=
  if 'A' ≤ c ∧ c ≤ 'Z' then some (c.toNat - 65)
  else if 'a' ≤ c ∧ c ≤ 'z' then some (c.toNat - 97 + 26)
  else if '0' ≤ c ∧ c ≤ '9' then some (c.toNat - 48 + 52)
  else if c = '+' then some 62
  else if c = '/' then some 63
  else none

/-- `base64.StdEncoding.Decode` on a newline-free character sequence:
returns the decoded bytes together with an error flag.  Faithful to Go's
quantum-at-a-time decoder: an invalid character, a truncated final
quantum, misplaced padding, or data after padding set the error flag, and
the bytes of every quantum completed before the error are still returned
(a padded final quantum also contributes its bytes when trailing data
follows it). -/
def b64DecodeQuanta : List Char → List Nat × Bool
  | [] => ([], false)
  | [_] => ([], true)
  | [_, _] => ([], true)
  | [_, _, _] => ([], true)
  | c1 :: c2 :: c3 :: c4 :: rest =>
    match b64Index c1, b64Index c2 with
    | some a, some b =>
      if c3 = '=' then
        if c4 = '=' then ([a * 4 + b / 16], !rest.isEmpty)
        else ([], true)
      else
        match b64Index c3 with
        | some c =>
          if c4 = '=' then
            ([a * 4 + b / 16, b % 16 * 16 + c / 4], !rest.isEmpty)
          else
            match b64Index c4 with
            | some d =>
              let tail := b64DecodeQuanta rest
              ((a * 4 + b / 16) :: (b % 16 * 16 + c / 4) ::
                (c % 4 * 64 + d) :: tail.1, tail.2)
            | none => ([], true)
        | none => ([], true)
    | _, _ => ([], true)

/-- `base64.StdEncoding.DecodeString` with Go's semantics: carriage
returns and newlines are skipped, and on error the bytes decoded before
the error are still returned alongside the error flag.  The byte values
are re-read as characters, as Go's `string(b)` byte-to-string view. -/
def b64DecodeString (s : String) : String × Bool :=
  let r := b64DecodeQuanta (s.data.filter fun c => ¬(c = '\n' ∨ c = '\r'))
  (String.mk (r.1.map Char.ofNat), r.2)

/-- `strconv.Atoi`: an optional sign followed by at least one decimal
digit, erroring on any other character and on 64-bit overflow. -/
def parseDigits : List Char → Option Nat
  | [] => none
  | ds =>
    if ds.all fun c => '0' ≤ c ∧ c ≤ '9' then
      some (ds.foldl (fun n c => 10 * n + (c.toNat - 48)) 0)
    else none

/-- `strconv.Atoi` from the Go standard library, returning `none` exactly
when Go returns a non-nil error. -/
def atoi (s : String) : Option Int :=
  match s.data with
  | [] => none
  | '+' :: rest =>
    (parseDigits rest).bind fun n =>
      if n ≤ 9223372036854775807 then some (n : Int) else none
  | '-' :: rest =>
    (parseDigits rest).bind fun n =>
      if n ≤ 9223372036854775808 then some (-(n : Int)) else none
  | ds =>
    (parseDigits ds).bind fun n =>
      if n ≤ 9223372036854775807 then some (n : Int) else none

/-- The explicit-key branch of the `POST /short` handler: read the key;
fail (returning `none` and the untouched store) when it holds a non-empty
value different from the decoded long URL; otherwise store the pair with
a plain `SET` and return the key. -/
def explicitPath (s : Store) (shortKey longUrl : String) :
    Store × Option String :=
  let ex := s.getS shortKey
  if ex ≠ "" ∧ ex ≠ longUrl then (s, none)
  else (s.set shortKey longUrl, some shortKey)

/-- The JSON response structure of the handler. -/
structure Response where
  Code : Int
  Message : String
  LongUrl : String
  ShortUrl : String

/-- Server configuration: the short-link domain, the TTL flag in days,
and the https flag. -/
structure Config where
  domain : String
  ttlDays : Int
  https : Int

/-- The URL scheme the handler stamps on returned short links. -/
def proto (cfg : Config) : String :=
  if cfg.https ≠ 0 then "https://" else "http://"

/-- The length-field validation of the handler: the default when the
field is blank, the parsed value when it lies within
`minShortUrlLen..maxShortUrlLen`, and the handler's error message
otherwise. -/
def shortUrlLenOf (fLenStr : String) : Sum Nat String :=
  if fLenStr = "" then Sum.inl defaultShortUrlLen
  else
    match atoi fLenStr with
    | none => Sum.inr "shortUrlLen必须为数字"
    | some n =>
      if (minShortUrlLen : Int) ≤ n ∧ n ≤ (maxShortUrlLen : Int) then
        Sum.inl n.toNat
      else Sum.inr "shortUrlLen范围为1-20"

/-- The `POST /short` handler from the source: reject an empty `longUrl`
field, validate the optional length field, base64-decode the long URL
discarding the error, then either run the explicit-key branch or
`longToShort`. -/
def handleShort (cfg : Config) (times : Nat → Nat) (s : Store)
    (fLongUrl fShortKey fLenStr : String) : Store × Response :=
  if fLongUrl = "" then
    (s, ⟨0, "longUrl为空", "", ""⟩)
  else
    match shortUrlLenOf fLenStr with
    | Sum.inr msg => (s, ⟨0, msg, "", ""⟩)
    | Sum.inl shortUrlLen =>
      let longUrl := (b64DecodeString fLongUrl).1
      if fShortKey ≠ "" then
        match explicitPath s fShortKey longUrl with
        | (s1, none) =>
          (s1, ⟨0, "短链接已存在，请更换key", longUrl, ""⟩)
        | (s1, some k) =>
          (s1, ⟨1, "", longUrl, proto cfg ++ cfg.domain ++ "/" ++ k⟩)
      else
        let sk := longToShort s times longUrl
          (cfg.ttlDays * secondsPerDay) shortUrlLen
        (sk.1, ⟨1, "", longUrl,
          proto cfg ++ cfg.domain ++ "/" ++ sk.2⟩)

/-- A sample server configuration for concrete runs of the handler. -/
def cfgEx : Config := ⟨"example.com", 180, 1⟩

/-- A concrete reachable store: short key `"k"` holds `"u"` with 100
seconds left, and the dedup entry for `"u"` points to `"k"` with 500
seconds left. -/
def c4Store : Store :=
  (((Store.empty.set "k" "u").set (md5Pref ++ md5Hex "u") "k").expire "k"
    100).expire (md5Pref ++ md5Hex "u") 500

/-! ## Frame lemmas for the store commands -/

theorem Store.getS_eq (s : Store) (k : String) :
    s.getS k = (s.val k).getD "" := rfl

theorem Store.val_set (s : Store) (k v q : String) :
    (s.set k v).val q = if q = k then some v else s.val q := rfl

theorem Store.exp_set (s : Store) (k v q : String) :
    (s.set k v).exp q = if q = k then none else s.exp q := rfl

theorem Store.getS_set_self (s : Store) (k v : String) :
    (s.set k v).getS k = v := by
  simp [Store.getS, Store.set]

theorem Store.getS_set_ne (s : Store) (k v q : String) (h : q ≠ k) :
    (s.set k v).getS q = s.getS q := by
  simp [Store.getS, Store.set, h]

theorem Store.val_expire_pos (s : Store) (k : String) (t : Int)
    (ht : 0 < t) (q : String) : (s.expire k t).val q = s.val q := by
  unfold Store.expire
  split
  · rw [if_neg (by omega)]
  · rfl

theorem Store.getS_expire_pos (s : Store) (k : String) (t : Int)
    (ht : 0 < t) (q : String) : (s.expire k t).getS q = s.getS q := by
  simp [Store.getS, Store.val_expire_pos s k t ht q]

theorem Store.exp_expire_ne (s : Store) (k : String) (t : Int) (q : String)
    (h : q ≠ k) : (s.expire k t).exp q = s.exp q := by
  unfold Store.expire
  split
  · split
    · simp [Store.del, h]
    · simp [h]
  · rfl

theorem Store.exp_expire_self (s : Store) (k : String) (t : Int)
    (hv : (s.val k).isSome) (ht : 0 < t) :
    (s.expire k t).exp k = some t := by
  unfold Store.expire
  rw [if_pos hv, if_neg (by omega)]
  simp

theorem Store.ttlCmd_of_val_exp (s : Store) (k : String) (v : String)
    (t : Int) (hv : s.val k = some v) (he : s.exp k = some t) :
    s.ttlCmd k = t := by
  unfold Store.ttlCmd
  rw [hv, he]

theorem Store.setnx_of_none (s : Store) (k v : String)
    (h : s.val k = none) : s.setnx k v = (s.set k v, 1) := by
  simp [Store.setnx, h]

theorem Store.setnx_of_some (s : Store) (k v : String)
    (h : (s.val k).isSome) : s.setnx k v = (s, 0) := by
  simp [Store.setnx, h]

/-! ## The generator's output alphabet -/

theorem generate_length (bits seed : Nat) :
    (generate bits seed).length = bits := by
  unfold generate
  rw [String.length_mk]
  simp

theorem generate_ne_empty (bits seed : Nat) (h : 1 ≤ bits) :
    generate bits seed ≠ "" := by
  intro he
  have := generate_length bits seed
  rw [he] at this
  simp [String.length] at this
  omega

theorem mem_letterBytes_of_mem_generate (bits seed : Nat) (c : Char)
    (h : c ∈ (generate bits seed).data) : c ∈ letterBytes.data := by
  simp only [generate, String.mk, List.mem_map] at h
  obtain ⟨i, _, hi⟩ := h
  subst hi
  have hlt : randSeq seed i % letterBytes.data.length <
      letterBytes.data.length := Nat.mod_lt _ (by decide)
  rw [List.getD_eq_getElem letterBytes.data 'A' hlt]
  exact List.getElem_mem hlt

/-- A generated key never equals a string containing a colon: every
generated character lies in the 62-symbol alphabet, which has no colon. -/
theorem generate_ne_of_colon (bits seed : Nat) (x : String)
    (hx : ':' ∈ x.data) : generate bits seed ≠ x := by
  intro he
  have : ':' ∈ (generate bits seed).data := by rw [he]; exact hx
  have := mem_letterBytes_of_mem_generate bits seed ':' this
  revert this
  decide

/-- Both reserved key namespaces contain a colon, so a generated short
key can never land in either namespace. -/
theorem colon_mem_md5Key (h : String) : ':' ∈ (md5Pref ++ h).data := by
  rw [String.data_append]
  apply List.mem_append_left
  decide

theorem colon_mem_lockKey (h : String) : ':' ∈ (lockPref ++ h).data := by
  rw [String.data_append]
  apply List.mem_append_left
  decide

/-- A lock key is strictly longer than the key it guards, hence distinct
from it. -/
theorem lockKey_ne (k : String) : lockPref ++ k ≠ k := by
  intro he
  have := congrArg String.length he
  rw [String.length_append] at this
  have hl : lockPref.length = 12 := by decide
  omega

/-! ## Claim theorems -/

/-- C1: For every creation request with a non-empty explicit short key:
when the key currently reads as a non-empty value different from the
decoded long URL, the explicit-key branch fails (the conflict response)
and the store is untouched; otherwise the pair is written with a plain
`SET` and the key is returned immediately, the write assigns no TTL to
the key and touches no other key — in particular it writes no
dedup-index entry. -/
theorem explicit_key_conflict_or_unconditional_write (s : Store)
    (shortKey longUrl : String) (hk : shortKey ≠ "") :
    (s.getS shortKey ≠ "" ∧ s.getS shortKey ≠ longUrl →
      explicitPath s shortKey longUrl = (s, none)) ∧
    (¬(s.getS shortKey ≠ "" ∧ s.getS shortKey ≠ longUrl) →
      explicitPath s shortKey longUrl =
        (s.set shortKey longUrl, some shortKey) ∧
      (s.set shortKey longUrl).exp shortKey = none ∧
      ∀ q, q ≠ shortKey → (s.set shortKey longUrl).val q = s.val q ∧
        (s.set shortKey longUrl).exp q = s.exp q) := by
  constructor
  · intro h
    simp only [explicitPath, if_pos h]
  · intro h
    refine ⟨by simp only [explicitPath, if_neg h], by simp [Store.exp_set],
      fun q hq => ⟨by simp [Store.val_set, hq], by simp [Store.exp_set, hq]⟩⟩

theorem explicit_key_conflict_or_unconditional_write_witness :
    ("abc" : String) ≠ "" ∧
    ((Store.empty.getS "abc" ≠ "" ∧ Store.empty.getS "abc" ≠ "http://x" →
      explicitPath Store.empty "abc" "http://x" = (Store.empty, none)) ∧
    (¬(Store.empty.getS "abc" ≠ "" ∧ Store.empty.getS "abc" ≠ "http://x") →
      explicitPath Store.empty "abc" "http://x" =
        (Store.empty.set "abc" "http://x", some "abc") ∧
      (Store.empty.set "abc" "http://x").exp "abc" = none ∧
      ∀ q, q ≠ "abc" →
        (Store.empty.set "abc" "http://x").val q = Store.empty.val q ∧
        (Store.empty.set "abc" "http://x").exp q = Store.empty.exp q)) :=
  ⟨by decide, explicit_key_conflict_or_unconditional_write Store.empty
    "abc" "http://x" (by decide)⟩

/-- C10: An explicit-key creation whose key already maps to the identical
long URL (here an expiring record, `exp = some t`) takes the no-conflict
branch and rewrites the record with an unconditional `SET`: the value is
unchanged but the expiration is removed, so the record now never expires
(`TTL` reads `-1`). -/
theorem explicit_rewrite_clears_expiration (s : Store) (k L : String)
    (t : Int) (hval : s.val k = some L) (hexp : s.exp k = some t) :
    explicitPath s k L = (s.set k L, some k) ∧
    (s.set k L).val k = s.val k ∧
    (s.set k L).exp k = none ∧
    (s.set k L).ttlCmd k = -1 := by
  have hex : s.getS k = L := by simp [Store.getS, hval]
  refine ⟨?_, ?_, ?_, ?_⟩
  · have : ¬(s.getS k ≠ "" ∧ s.getS k ≠ L) := by
      rw [hex]; simp
    simp only [explicitPath, if_neg this]
  · simp [Store.val_set, hval]
  · simp [Store.exp_set]
  · simp [Store.ttlCmd, Store.set]

theorem explicit_rewrite_clears_expiration_witness :
    ((Store.empty.set "k" "u").expire "k" 100).val "k" = some "u" ∧
    ((Store.empty.set "k" "u").expire "k" 100).exp "k" = some 100 ∧
    (explicitPath ((Store.empty.set "k" "u").expire "k" 100) "k" "u" =
      (((Store.empty.set "k" "u").expire "k" 100).set "k" "u", some "k") ∧
    (((Store.empty.set "k" "u").expire "k" 100).set "k" "u").val "k" =
      ((Store.empty.set "k" "u").expire "k" 100).val "k" ∧
    (((Store.empty.set "k" "u").expire "k" 100).set "k" "u").exp "k" =
      none ∧
    (((Store.empty.set "k" "u").expire "k" 100).set "k" "u").ttlCmd "k" =
      -1) :=
  ⟨by decide, by decide, explicit_rewrite_clears_expiration
    ((Store.empty.set "k" "u").expire "k" 100) "k" "u" 100 (by decide)
    (by decide)⟩

/-- C7 (refuted, code bug): `generate` constructs its random source from
`time.Now().UnixNano()` inside each call, so its output is a function of
the call's nanosecond timestamp alone: two calls within the same
nanosecond return the identical, fully correlated string. -/
theorem generate_same_nanosecond_identical (bits t1 t2 : Nat)
    (h : t1 = t2) :
    generate bits t1 = generate bits t2 ∧
    (1 ≤ bits → generate bits t1 ≠ "") := by
  subst h
  exact ⟨rfl, fun hb => generate_ne_empty bits t1 hb⟩

theorem generate_same_nanosecond_identical_witness :
    12345 = 12345 ∧
    (generate 6 12345 = generate 6 12345 ∧
      (1 ≤ 6 → generate 6 12345 ≠ "")) :=
  ⟨rfl, generate_same_nanosecond_identical 6 12345 12345 rfl⟩

/-- The three-iteration loop picks the first candidate whose lookup is
empty and otherwise falls through to the last candidate. -/
theorem collisionLoop_three (s : Store) (c0 c1 c2 : String) :
    collisionLoop s [c0, c1, c2] "" =
      if s.getS c0 = "" then c0
      else if s.getS c1 = "" then c1 else c2 := by
  simp only [collisionLoop]
  split_ifs <;> rfl

/-- Facts about a dedup-miss creation: the returned key is one of the
three generated candidates and non-empty, and the final store maps it to
the long URL with TTL `ttl` while the dedup key maps to the returned
key. -/
theorem longToShort_miss_facts (s : Store) (times : Nat → Nat)
    (L : String) (ttl : Int) (len : Nat) (hlen : 1 ≤ len) (httl : 0 < ttl)
    (hmiss : s.getS (md5Pref ++ md5Hex L) = "") :
    ((longToShort s times L ttl len).2 = generate len (times 0) ∨
     (longToShort s times L ttl len).2 = generate len (times 1) ∨
     (longToShort s times L ttl len).2 = generate len (times 2)) ∧
    (longToShort s times L ttl len).2 ≠ "" ∧
    (longToShort s times L ttl len).1.val
      (longToShort s times L ttl len).2 = some L ∧
    (longToShort s times L ttl len).1.exp
      (longToShort s times L ttl len).2 = some ttl ∧
    (longToShort s times L ttl len).1.getS (md5Pref ++ md5Hex L) =
      (longToShort s times L ttl len).2 := by
  have hday : (0 : Int) < secondsPerDay := by decide
  set md5Key := md5Pref ++ md5Hex L with hmd5Key
  set k := collisionLoop s
    [generate len (times 0), generate len (times 1),
     generate len (times 2)] "" with hkdef
  have hk3 : k = generate len (times 0) ∨ k = generate len (times 1) ∨
      k = generate len (times 2) := by
    rw [hkdef, collisionLoop_three]
    split_ifs <;> simp
  have hkg : ∃ t0, k = generate len t0 := by
    rcases hk3 with h | h | h
    · exact ⟨times 0, h⟩
    · exact ⟨times 1, h⟩
    · exact ⟨times 2, h⟩
  obtain ⟨t0, hkt⟩ := hkg
  have hkne : k ≠ "" := by rw [hkt]; exact generate_ne_empty len t0 hlen
  have hkmd5 : k ≠ md5Key := by
    rw [hkt, hmd5Key]
    exact generate_ne_of_colon len t0 _ (colon_mem_md5Key _)
  have hres : longToShort s times L ttl len =
      ((((s.mset k L md5Key k).expire k ttl).expire md5Key
        secondsPerDay), k) := by
    unfold longToShort
    rw [← hmd5Key, ← hkdef]
    simp only [hmiss, ne_eq, not_true_eq_false, if_false, hkne,
      not_false_eq_true, if_true]
  rw [hres]
  have hv1 : (s.mset k L md5Key k).val k = some L := by
    simp [Store.mset, Store.val_set, hkmd5]
  have hvsome : ((s.mset k L md5Key k).val k).isSome := by
    rw [hv1]; rfl
  refine ⟨hk3, hkne, ?_, ?_, ?_⟩
  · rw [Store.val_expire_pos _ _ _ hday, Store.val_expire_pos _ _ _ httl]
    exact hv1
  · rw [Store.exp_expire_ne _ _ _ _ hkmd5]
    exact Store.exp_expire_self _ _ _ hvsome httl
  · rw [Store.getS_eq, Store.val_expire_pos _ _ _ hday,
      Store.val_expire_pos _ _ _ httl]
    simp [Store.mset, Store.val_set]

/-- C5: On a dedup-index miss the generation loop runs at most three
iterations, stopping at the first candidate whose record lookup is
empty; when all three candidates collide, `longToShort` proceeds with
the last candidate anyway, overwriting whatever that key held, instead
of failing. -/
theorem generation_loop_first_free_else_overwrite (s : Store)
    (times : Nat → Nat) (L : String) (ttl : Int) (len : Nat)
    (hlen : 1 ≤ len) (httl : 0 < ttl)
    (hmiss : s.getS (md5Pref ++ md5Hex L) = "") :
    collisionLoop s [generate len (times 0), generate len (times 1),
        generate len (times 2)] "" =
      (if s.getS (generate len (times 0)) = "" then generate len (times 0)
       else if s.getS (generate len (times 1)) = "" then
         generate len (times 1)
       else generate len (times 2)) ∧
    (s.getS (generate len (times 0)) ≠ "" →
     s.getS (generate len (times 1)) ≠ "" →
     s.getS (generate len (times 2)) ≠ "" →
      (longToShort s times L ttl len).2 = generate len (times 2) ∧
      (longToShort s times L ttl len).1.getS (generate len (times 2)) =
        L) := by
  refine ⟨collisionLoop_three s _ _ _, fun h0 h1 h2 => ?_⟩
  have hloop : collisionLoop s
      [generate len (times 0), generate len (times 1),
       generate len (times 2)] "" = generate len (times 2) := by
    rw [collisionLoop_three, if_neg h0, if_neg h1]
  obtain ⟨_, _, hval, _, _⟩ :=
    longToShort_miss_facts s times L ttl len hlen httl hmiss
  have hsnd : (longToShort s times L ttl len).2 =
      generate len (times 2) := by
    unfold longToShort
    simp only [hmiss, ne_eq, not_true_eq_false, if_false, hloop]
    split <;> rfl
  refine ⟨hsnd, ?_⟩
  rw [← hsnd, Store.getS_eq, hval]
  rfl

theorem generation_loop_first_free_else_overwrite_witness :
    1 ≤ 6 ∧ (0 : Int) < 777 ∧
    Store.empty.getS (md5Pref ++ md5Hex "u") = "" ∧
    (collisionLoop Store.empty
        [generate 6 ((fun _ => 0) 0), generate 6 ((fun _ => 0) 1),
         generate 6 ((fun _ => 0) 2)] "" =
      (if Store.empty.getS (generate 6 ((fun _ => 0) 0)) = "" then
        generate 6 ((fun _ => 0) 0)
       else if Store.empty.getS (generate 6 ((fun _ => 0) 1)) = "" then
        generate 6 ((fun _ => 0) 1)
       else generate 6 ((fun _ => 0) 2)) ∧
    (Store.empty.getS (generate 6 ((fun _ => 0) 0)) ≠ "" →
     Store.empty.getS (generate 6 ((fun _ => 0) 1)) ≠ "" →
     Store.empty.getS (generate 6 ((fun _ => 0) 2)) ≠ "" →
      (longToShort Store.empty (fun _ => 0) "u" 777 6).2 =
        generate 6 ((fun _ => 0) 2) ∧
      (longToShort Store.empty (fun _ => 0) "u" 777 6).1.getS
        (generate 6 ((fun _ => 0) 2)) = "u")) :=
  ⟨by decide, by decide, by decide,
    generation_loop_first_free_else_overwrite Store.empty (fun _ => 0)
      "u" 777 6 (by decide) (by decide) (by decide)⟩

/-- C3: Two sequential generated-key creations for the same long URL,
the second finding the dedup index entry written by the first, return
the same short key both times, and the second call resets the
ShortLinkRecord's TTL to its own requested `ttl` while the record still
maps to the long URL. -/
theorem second_create_returns_same_key_and_refreshes (s : Store)
    (times1 times2 : Nat → Nat) (L : String) (ttl1 ttl2 : Int)
    (len : Nat) (hlen : 1 ≤ len) (h1 : 0 < ttl1) (h2 : 0 < ttl2)
    (hmiss : s.getS (md5Pref ++ md5Hex L) = "") :
    (longToShort (longToShort s times1 L ttl1 len).1 times2 L ttl2
      len).2 = (longToShort s times1 L ttl1 len).2 ∧
    (longToShort (longToShort s times1 L ttl1 len).1 times2 L ttl2
      len).1.ttlCmd (longToShort s times1 L ttl1 len).2 = ttl2 ∧
    (longToShort (longToShort s times1 L ttl1 len).1 times2 L ttl2
      len).1.getS (longToShort s times1 L ttl1 len).2 = L := by
  obtain ⟨-, hkne, hval, -, hmd5⟩ :=
    longToShort_miss_facts s times1 L ttl1 len hlen h1 hmiss
  set r1 := longToShort s times1 L ttl1 len with hr1
  have hhit : r1.1.getS (md5Pref ++ md5Hex L) ≠ "" := by
    rw [hmd5]; exact hkne
  have hres : longToShort r1.1 times2 L ttl2 len =
      (r1.1.expire (r1.1.getS (md5Pref ++ md5Hex L)) ttl2,
        r1.1.getS (md5Pref ++ md5Hex L)) := by
    unfold longToShort
    simp only [hhit, if_true, ne_eq, not_false_eq_true, if_pos]
  rw [hres, hmd5]
  have hvsome : (r1.1.val r1.2).isSome := by rw [hval]; rfl
  refine ⟨rfl, ?_, ?_⟩
  · exact Store.ttlCmd_of_val_exp _ _ L ttl2
      (by rw [Store.val_expire_pos _ _ _ h2]; exact hval)
      (Store.exp_expire_self _ _ _ hvsome h2)
  · rw [Store.getS_expire_pos _ _ _ h2, Store.getS_eq, hval]
    rfl

theorem second_create_returns_same_key_and_refreshes_witness :
    1 ≤ 6 ∧ (0 : Int) < 777 ∧ (0 : Int) < 99 ∧
    Store.empty.getS (md5Pref ++ md5Hex "u") = "" ∧
    ((longToShort (longToShort Store.empty (fun _ => 0) "u" 777 6).1
      (fun _ => 1) "u" 99 6).2 =
        (longToShort Store.empty (fun _ => 0) "u" 777 6).2 ∧
    (longToShort (longToShort Store.empty (fun _ => 0) "u" 777 6).1
      (fun _ => 1) "u" 99 6).1.ttlCmd
        (longToShort Store.empty (fun _ => 0) "u" 777 6).2 = 99 ∧
    (longToShort (longToShort Store.empty (fun _ => 0) "u" 777 6).1
      (fun _ => 1) "u" 99 6).1.getS
        (longToShort Store.empty (fun _ => 0) "u" 777 6).2 = "u") :=
  ⟨by decide, by decide, by decide, by decide,
    second_create_returns_same_key_and_refreshes Store.empty
      (fun _ => 0) (fun _ => 1) "u" 777 99 6 (by decide) (by decide)
      (by decide) (by decide)⟩

/-- C2: Immediately after a generated-key creation (no explicit key) of
a non-empty long URL with a positive TTL, resolving the returned short
key yields exactly the submitted long URL.  On the cache-hit path this
needs the dedup entry to point at a record holding that URL, which is
how every dedup entry is written. -/
theorem resolve_after_generated_create (s : Store) (times : Nat → Nat)
    (L : String) (ttl : Int) (len : Nat) (hL : L ≠ "") (httl : 0 < ttl)
    (hlen : 1 ≤ len)
    (hcons : s.getS (md5Pref ++ md5Hex L) ≠ "" →
      s.getS (s.getS (md5Pref ++ md5Hex L)) = L) :
    (shortToLong (longToShort s times L ttl len).1
      (longToShort s times L ttl len).2).2 = L := by
  by_cases hhit : s.getS (md5Pref ++ md5Hex L) = ""
  · obtain ⟨-, -, hval, -, -⟩ :=
      longToShort_miss_facts s times L ttl len hlen httl hhit
    have hread : (longToShort s times L ttl len).1.getS
        (longToShort s times L ttl len).2 = L := by
      rw [Store.getS_eq, hval]; rfl
    unfold shortToLong
    simp only [hread, hL, ne_eq, not_false_eq_true, if_pos]
  · have hres : longToShort s times L ttl len =
        (s.expire (s.getS (md5Pref ++ md5Hex L)) ttl,
          s.getS (md5Pref ++ md5Hex L)) := by
      unfold longToShort
      simp only [hhit, ne_eq, not_false_eq_true, if_pos]
    rw [hres]
    have hread : (s.expire (s.getS (md5Pref ++ md5Hex L)) ttl).getS
        (s.getS (md5Pref ++ md5Hex L)) = L := by
      rw [Store.getS_expire_pos _ _ _ httl]
      exact hcons hhit
    unfold shortToLong
    simp only [hread, hL, ne_eq, not_false_eq_true, if_pos]

theorem resolve_after_generated_create_witness :
    ("u" : String) ≠ "" ∧ (0 : Int) < 777 ∧ 1 ≤ 6 ∧
    (Store.empty.getS (md5Pref ++ md5Hex "u") ≠ "" →
      Store.empty.getS (Store.empty.getS (md5Pref ++ md5Hex "u")) =
        "u") ∧
    (shortToLong (longToShort Store.empty (fun _ => 0) "u" 777 6).1
      (longToShort Store.empty (fun _ => 0) "u" 777 6).2).2 = "u" :=
  ⟨by decide, by decide, by decide, by decide,
    resolve_after_generated_create Store.empty (fun _ => 0) "u" 777 6
      (by decide) (by decide) (by decide) (by decide)⟩

/-- C4 as stated is false on the code: a generated-key creation that
hits the dedup index does not touch the dedup record at all — in this
concrete reachable store the dedup entry keeps its remaining 500
seconds instead of being reset to the one-day window; the `EXPIRE`
issued on the hit path targets the short key the entry points to, not
the dedup key. -/
theorem cache_hit_does_not_refresh_dedup_ttl :
    (longToShort c4Store (fun _ => 0) "u" 777 6).2 = "k" ∧
    (longToShort c4Store (fun _ => 0) "u" 777 6).1.ttlCmd
      (md5Pref ++ md5Hex "u") = 500 ∧
    (500 : Int) ≠ secondsPerDay ∧
    (longToShort c4Store (fun _ => 0) "u" 777 6).1.ttlCmd "k" = 777 := by
  decide

/-- C4 amended: whenever a generated-key creation request hits an
existing dedup index entry, the dedup record itself is left entirely
unchanged — value and TTL; what is refreshed is the ShortLinkRecord the
entry points to, whose TTL is reset to the request's `ttl`. -/
theorem cache_hit_refreshes_record_not_dedup (s : Store)
    (times : Nat → Nat) (L : String) (ttl : Int) (len : Nat)
    (hhit : s.getS (md5Pref ++ md5Hex L) ≠ "")
    (hne : s.getS (md5Pref ++ md5Hex L) ≠ md5Pref ++ md5Hex L)
    (httl : 0 < ttl) :
    (longToShort s times L ttl len).1.val (md5Pref ++ md5Hex L) =
      s.val (md5Pref ++ md5Hex L) ∧
    (longToShort s times L ttl len).1.exp (md5Pref ++ md5Hex L) =
      s.exp (md5Pref ++ md5Hex L) ∧
    (longToShort s times L ttl len).2 =
      s.getS (md5Pref ++ md5Hex L) ∧
    ((s.val (s.getS (md5Pref ++ md5Hex L))).isSome →
      (longToShort s times L ttl len).1.ttlCmd
        (s.getS (md5Pref ++ md5Hex L)) = ttl) := by
  have hres : longToShort s times L ttl len =
      (s.expire (s.getS (md5Pref ++ md5Hex L)) ttl,
        s.getS (md5Pref ++ md5Hex L)) := by
    unfold longToShort
    simp only [hhit, ne_eq, not_false_eq_true, if_pos]
  rw [hres]
  refine ⟨Store.val_expire_pos _ _ _ httl _,
    Store.exp_expire_ne _ _ _ _ (Ne.symm hne), rfl, fun hsome => ?_⟩
  obtain ⟨v, hv⟩ := Option.isSome_iff_exists.mp hsome
  exact Store.ttlCmd_of_val_exp _ _ v ttl
    (by rw [Store.val_expire_pos _ _ _ httl]; exact hv)
    (Store.exp_expire_self _ _ _ hsome httl)

theorem cache_hit_refreshes_record_not_dedup_witness :
    c4Store.getS (md5Pref ++ md5Hex "u") ≠ "" ∧
    c4Store.getS (md5Pref ++ md5Hex "u") ≠ md5Pref ++ md5Hex "u" ∧
    (0 : Int) < 777 ∧
    ((longToShort c4Store (fun _ => 0) "u" 777 6).1.val
        (md5Pref ++ md5Hex "u") = c4Store.val (md5Pref ++ md5Hex "u") ∧
    (longToShort c4Store (fun _ => 0) "u" 777 6).1.exp
        (md5Pref ++ md5Hex "u") = c4Store.exp (md5Pref ++ md5Hex "u") ∧
    (longToShort c4Store (fun _ => 0) "u" 777 6).2 =
      c4Store.getS (md5Pref ++ md5Hex "u") ∧
    ((c4Store.val (c4Store.getS (md5Pref ++ md5Hex "u"))).isSome →
      (longToShort c4Store (fun _ => 0) "u" 777 6).1.ttlCmd
        (c4Store.getS (md5Pref ++ md5Hex "u")) = 777)) :=
  ⟨by decide, by decide, by decide,
    cache_hit_refreshes_record_not_dedup c4Store (fun _ => 0) "u" 777 6
      (by decide) (by decide) (by decide)⟩

/-- `renew` does nothing when the renewal lock is already held. -/
theorem renew_held (s : Store) (key : String)
    (hlock : (s.val (lockPref ++ key)).isSome) : renew s key = s := by
  unfold renew
  simp only [Store.setnx_of_some _ _ _ hlock]
  simp

/-- `renew` with a newly acquired lock on a record with no expiration:
the lock is written with a one-day TTL and the record is left alone. -/
theorem renew_acquired_noexp (s : Store) (key v : String)
    (hval : s.val key = some v) (hlock : s.val (lockPref ++ key) = none)
    (hexp : s.exp key = none) :
    renew s key = (s.set (lockPref ++ key) "1").expire (lockPref ++ key)
      (defaultRenewalDay * secondsPerDay) := by
  have hW : (0 : Int) < defaultRenewalDay * secondsPerDay := by decide
  have hne : key ≠ lockPref ++ key := Ne.symm (lockKey_ne key)
  have hval2 : ((s.set (lockPref ++ key) "1").expire (lockPref ++ key)
      (defaultRenewalDay * secondsPerDay)).val key = some v := by
    rw [Store.val_expire_pos _ _ _ hW, Store.val_set, if_neg hne, hval]
  have hexp2 : ((s.set (lockPref ++ key) "1").expire (lockPref ++ key)
      (defaultRenewalDay * secondsPerDay)).exp key = none := by
    rw [Store.exp_expire_ne _ _ _ _ hne, Store.exp_set, if_neg hne, hexp]
  have httl : ((s.set (lockPref ++ key) "1").expire (lockPref ++ key)
      (defaultRenewalDay * secondsPerDay)).ttlCmd key = -1 := by
    unfold Store.ttlCmd
    rw [hval2, hexp2]
  unfold renew
  simp only [Store.setnx_of_none _ _ _ hlock]
  simp [httl]

/-- `renew` with a newly acquired lock on a record with `t` seconds
left: the lock is written with a one-day TTL and the record's TTL
becomes `t` plus one day. -/
theorem renew_acquired_exp (s : Store) (key v : String) (t : Int)
    (hval : s.val key = some v) (hlock : s.val (lockPref ++ key) = none)
    (hexp : s.exp key = some t) (ht : 0 ≤ t) :
    renew s key = ((s.set (lockPref ++ key) "1").expire
      (lockPref ++ key) (defaultRenewalDay * secondsPerDay)).expire key
      (t + defaultRenewalDay * secondsPerDay) := by
  have hW : (0 : Int) < defaultRenewalDay * secondsPerDay := by decide
  have hne : key ≠ lockPref ++ key := Ne.symm (lockKey_ne key)
  have hval2 : ((s.set (lockPref ++ key) "1").expire (lockPref ++ key)
      (defaultRenewalDay * secondsPerDay)).val key = some v := by
    rw [Store.val_expire_pos _ _ _ hW, Store.val_set, if_neg hne, hval]
  have hexp2 : ((s.set (lockPref ++ key) "1").expire (lockPref ++ key)
      (defaultRenewalDay * secondsPerDay)).exp key = some t := by
    rw [Store.exp_expire_ne _ _ _ _ hne, Store.exp_set, if_neg hne, hexp]
  have httl : ((s.set (lockPref ++ key) "1").expire (lockPref ++ key)
      (defaultRenewalDay * secondsPerDay)).ttlCmd key = t :=
    Store.ttlCmd_of_val_exp _ _ v t hval2 hexp2
  unfold renew
  simp only [Store.setnx_of_none _ _ _ hlock]
  simp [httl, show t ≠ -1 by omega]

/-- C6: On the first resolve of a window (renewal lock absent) of a
resolvable key, the lock is created with a one-day TTL; a record with
`t` seconds left is extended to exactly `t` plus one day, and a record
with no expiration is left without one; every further resolve in the
window returns the same value and changes nothing at all, so the
remaining TTL never exceeds the original plus one renewal window. -/
theorem renewal_at_most_once_per_window (s : Store) (key : String)
    (hval : s.getS key ≠ "")
    (hlock : s.val (lockPref ++ key) = none)
    (hexpnn : ∀ u : Int, s.exp key = some u → 0 ≤ u) :
    (shortToLong s key).2 = s.getS key ∧
    (shortToLong s key).1.val (lockPref ++ key) = some "1" ∧
    (shortToLong s key).1.exp (lockPref ++ key) =
      some (defaultRenewalDay * secondsPerDay) ∧
    (∀ t : Int, s.exp key = some t →
      (shortToLong s key).1.exp key =
        some (t + defaultRenewalDay * secondsPerDay)) ∧
    (s.exp key = none → (shortToLong s key).1.exp key = none) ∧
    shortToLong (shortToLong s key).1 key =
      ((shortToLong s key).1, s.getS key) := by
  have hW : (0 : Int) < defaultRenewalDay * secondsPerDay := by decide
  have hne : key ≠ lockPref ++ key := Ne.symm (lockKey_ne key)
  have hneL : lockPref ++ key ≠ key := lockKey_ne key
  obtain ⟨v, hv⟩ : ∃ v, s.val key = some v := by
    cases h : s.val key with
    | none => exact absurd (by rw [Store.getS_eq, h]; rfl) hval
    | some v => exact ⟨v, rfl⟩
  have hst : shortToLong s key = (renew s key, s.getS key) := by
    unfold shortToLong
    simp only [hval, ne_eq, not_false_eq_true, if_pos]
  cases h : s.exp key with
  | none =>
    have hr : renew s key = (s.set (lockPref ++ key) "1").expire
        (lockPref ++ key) (defaultRenewalDay * secondsPerDay) :=
      renew_acquired_noexp s key v hv hlock h
    rw [hst, hr]
    set A := (s.set (lockPref ++ key) "1").expire (lockPref ++ key)
      (defaultRenewalDay * secondsPerDay) with hA
    have hAvalL : A.val (lockPref ++ key) = some "1" := by
      rw [hA, Store.val_expire_pos _ _ _ hW, Store.val_set, if_pos rfl]
    have hAexpL : A.exp (lockPref ++ key) =
        some (defaultRenewalDay * secondsPerDay) := by
      rw [hA]
      exact Store.exp_expire_self _ _ _
        (by rw [Store.val_set, if_pos rfl]; rfl) hW
    have hAvalk : A.val key = some v := by
      rw [hA, Store.val_expire_pos _ _ _ hW, Store.val_set, if_neg hne,
        hv]
    have hAexpk : A.exp key = none := by
      rw [hA, Store.exp_expire_ne _ _ _ _ hne, Store.exp_set,
        if_neg hne, h]
    have hAgets : A.getS key = s.getS key := by
      rw [Store.getS_eq, Store.getS_eq, hAvalk, hv]
    refine ⟨rfl, hAvalL, hAexpL, fun t ht => ?_, fun _ => hAexpk, ?_⟩
    · simp at ht
    · have h1 : A.getS key ≠ "" := by rw [hAgets]; exact hval
      have h2 : renew A key = A :=
        renew_held A key (by rw [hAvalL]; rfl)
      unfold shortToLong
      simp only [h1, ne_eq, not_false_eq_true, if_pos, h2, hAgets,
        ite_self]
  | some t =>
    have hr : renew s key = ((s.set (lockPref ++ key) "1").expire
        (lockPref ++ key) (defaultRenewalDay * secondsPerDay)).expire
        key (t + defaultRenewalDay * secondsPerDay) :=
      renew_acquired_exp s key v t hv hlock h (hexpnn t h)
    rw [hst, hr]
    set A := (s.set (lockPref ++ key) "1").expire (lockPref ++ key)
      (defaultRenewalDay * secondsPerDay) with hA
    set B := A.expire key (t + defaultRenewalDay * secondsPerDay)
      with hB
    have htW : (0 : Int) < t + defaultRenewalDay * secondsPerDay := by
      have := hexpnn t h
      omega
    have hAvalL : A.val (lockPref ++ key) = some "1" := by
      rw [hA, Store.val_expire_pos _ _ _ hW, Store.val_set, if_pos rfl]
    have hAexpL : A.exp (lockPref ++ key) =
        some (defaultRenewalDay * secondsPerDay) := by
      rw [hA]
      exact Store.exp_expire_self _ _ _
        (by rw [Store.val_set, if_pos rfl]; rfl) hW
    have hAvalk : A.val key = some v := by
      rw [hA, Store.val_expire_pos _ _ _ hW, Store.val_set, if_neg hne,
        hv]
    have hBvalL : B.val (lockPref ++ key) = some "1" := by
      rw [hB, Store.val_expire_pos _ _ _ htW]
      exact hAvalL
    have hBexpL : B.exp (lockPref ++ key) =
        some (defaultRenewalDay * secondsPerDay) := by
      rw [hB, Store.exp_expire_ne _ _ _ _ hneL]
      exact hAexpL
    have hBvalk : B.val key = some v := by
      rw [hB, Store.val_expire_pos _ _ _ htW]
      exact hAvalk
    have hBexpk : B.exp key =
        some (t + defaultRenewalDay * secondsPerDay) := by
      rw [hB]
      exact Store.exp_expire_self _ _ _ (by rw [hAvalk]; rfl) htW
    have hBgets : B.getS key = s.getS key := by
      rw [Store.getS_eq, Store.getS_eq, hBvalk, hv]
    refine ⟨rfl, hBvalL, hBexpL, fun u hu => ?_, fun hc => ?_, ?_⟩
    · cases hu
      exact hBexpk
    · simp at hc
    · have h1 : B.getS key ≠ "" := by rw [hBgets]; exact hval
      have h2 : renew B key = B :=
        renew_held B key (by rw [hBvalL]; rfl)
      unfold shortToLong
      simp only [h1, ne_eq, not_false_eq_true, if_pos, h2, hBgets,
        ite_self]

theorem renewal_at_most_once_per_window_witness :
    ((Store.empty.set "k" "u").expire "k" 10).getS "k" ≠ "" ∧
    ((Store.empty.set "k" "u").expire "k" 10).val (lockPref ++ "k") =
      none ∧
    (∀ u : Int,
      ((Store.empty.set "k" "u").expire "k" 10).exp "k" = some u →
      0 ≤ u) ∧
    ((shortToLong ((Store.empty.set "k" "u").expire "k" 10) "k").2 =
      ((Store.empty.set "k" "u").expire "k" 10).getS "k" ∧
    (shortToLong ((Store.empty.set "k" "u").expire "k" 10) "k").1.val
      (lockPref ++ "k") = some "1" ∧
    (shortToLong ((Store.empty.set "k" "u").expire "k" 10) "k").1.exp
      (lockPref ++ "k") = some (defaultRenewalDay * secondsPerDay) ∧
    (∀ t : Int,
      ((Store.empty.set "k" "u").expire "k" 10).exp "k" = some t →
      (shortToLong ((Store.empty.set "k" "u").expire "k" 10) "k").1.exp
        "k" = some (t + defaultRenewalDay * secondsPerDay)) ∧
    (((Store.empty.set "k" "u").expire "k" 10).exp "k" = none →
      (shortToLong ((Store.empty.set "k" "u").expire "k" 10) "k").1.exp
        "k" = none) ∧
    shortToLong
      (shortToLong ((Store.empty.set "k" "u").expire "k" 10) "k").1
      "k" =
      ((shortToLong ((Store.empty.set "k" "u").expire "k" 10) "k").1,
        ((Store.empty.set "k" "u").expire "k" 10).getS "k")) :=
  ⟨by decide, by decide, by decide,
    renewal_at_most_once_per_window
      ((Store.empty.set "k" "u").expire "k" 10) "k" (by decide)
      (by decide) (by decide)⟩

/-- C8 as stated is false on the code: the handler never validates the
shape of an explicit short key.  Here a key containing a space, `!`, a
colon and a slash — malformed under every documented key shape — is
accepted with success code 1 and written verbatim, instead of being
rejected with an invalid-input error. -/
theorem malformed_explicit_key_accepted :
    (handleShort cfgEx (fun _ => 0) Store.empty "eA==" "bad key!:/"
      "").2.Code = 1 ∧
    (handleShort cfgEx (fun _ => 0) Store.empty "eA==" "bad key!:/"
      "").1.getS "bad key!:/" = "x" := by
  decide

/-- C8 amended: an empty long URL, a non-numeric length field and an
out-of-range length field are each rejected with code 0, but a
creation request's explicit short key is never validated: any non-empty
key string, malformed or not, is accepted (code 1) whenever it does not
conflict with an existing different mapping. -/
theorem invalid_input_rejections (cfg : Config) (times : Nat → Nat)
    (s : Store) (fLongUrl fShortKey fLenStr : String) :
    (handleShort cfg times s "" fShortKey fLenStr).2.Code = 0 ∧
    (fLongUrl ≠ "" → fLenStr ≠ "" → atoi fLenStr = none →
      (handleShort cfg times s fLongUrl fShortKey fLenStr).2.Code =
        0) ∧
    (∀ n : Int, fLongUrl ≠ "" → atoi fLenStr = some n →
      ¬((minShortUrlLen : Int) ≤ n ∧ n ≤ (maxShortUrlLen : Int)) →
      (handleShort cfg times s fLongUrl fShortKey fLenStr).2.Code =
        0) ∧
    (∀ len : Nat, fLongUrl ≠ "" → fShortKey ≠ "" →
      shortUrlLenOf fLenStr = Sum.inl len →
      ¬(s.getS fShortKey ≠ "" ∧
        s.getS fShortKey ≠ (b64DecodeString fLongUrl).1) →
      (handleShort cfg times s fLongUrl fShortKey fLenStr).2.Code =
        1) := by
  refine ⟨?_, ?_, ?_, ?_⟩
  · simp [handleShort]
  · intro hu hl ha
    simp [handleShort, shortUrlLenOf, hu, hl, ha]
  · intro n hu ha hn
    have hl : fLenStr ≠ "" := by
      intro he
      rw [he, show atoi "" = none from rfl] at ha
      simp at ha
    simp [handleShort, shortUrlLenOf, hu, hl, ha, hn]
  · intro len hu hk hlen hnc
    simp [handleShort, hu, hlen, hk, explicitPath, hnc]

theorem invalid_input_rejections_witness :
    ((handleShort cfgEx (fun _ => 0) Store.empty "" "k" "").2.Code =
      0 ∧
    (("eA==" : String) ≠ "" → ("abc" : String) ≠ "" →
      atoi "abc" = none →
      (handleShort cfgEx (fun _ => 0) Store.empty "eA==" "k"
        "abc").2.Code = 0) ∧
    (∀ n : Int, ("eA==" : String) ≠ "" → atoi "abc" = some n →
      ¬((minShortUrlLen : Int) ≤ n ∧ n ≤ (maxShortUrlLen : Int)) →
      (handleShort cfgEx (fun _ => 0) Store.empty "eA==" "k"
        "abc").2.Code = 0) ∧
    (∀ len : Nat, ("eA==" : String) ≠ "" → ("k" : String) ≠ "" →
      shortUrlLenOf "abc" = Sum.inl len →
      ¬(Store.empty.getS "k" ≠ "" ∧
        Store.empty.getS "k" ≠ (b64DecodeString "eA==").1) →
      (handleShort cfgEx (fun _ => 0) Store.empty "eA==" "k"
        "abc").2.Code = 1)) :=
  invalid_input_rejections cfgEx (fun _ => 0) Store.empty "eA==" "k"
    "abc"

/-- C9: For every creation request whose `longUrl` field is non-empty
(and whose other fields pass validation — here an explicit unused key
and a blank length field), the handler base64-decodes the field
discarding any decode error and stores exactly the decoded prefix,
succeeding with code 1 even when the field is undecodable; when the
decoded bytes are empty, resolving the returned key afterwards reads
empty, i.e. not-found. -/
theorem undecodable_longurl_accepted (cfg : Config) (times : Nat → Nat)
    (s : Store) (raw key : String) (hraw : raw ≠ "") (hkey : key ≠ "")
    (hfresh : s.getS key = "") :
    (handleShort cfg times s raw key "").2.Code = 1 ∧
    (handleShort cfg times s raw key "").1.getS key =
      (b64DecodeString raw).1 ∧
    ((b64DecodeString raw).1 = "" →
      (shortToLong (handleShort cfg times s raw key "").1 key).2 =
        "") := by
  have hnc : ¬(s.getS key ≠ "" ∧
      s.getS key ≠ (b64DecodeString raw).1) := by
    rw [hfresh]; simp
  have hres : handleShort cfg times s raw key "" =
      (s.set key (b64DecodeString raw).1,
        ⟨1, "", (b64DecodeString raw).1,
          proto cfg ++ cfg.domain ++ "/" ++ key⟩) := by
    simp [handleShort, shortUrlLenOf, hraw, hkey, explicitPath, hnc]
  rw [hres]
  refine ⟨rfl, Store.getS_set_self s key _, fun hdec => ?_⟩
  have hg : (s.set key (b64DecodeString raw).1).getS key = "" := by
    rw [Store.getS_set_self, hdec]
  unfold shortToLong
  simp only [hg, ne_eq, not_true_eq_false, if_false]

theorem undecodable_longurl_accepted_witness :
    ("!!!!" : String) ≠ "" ∧ ("k" : String) ≠ "" ∧
    Store.empty.getS "k" = "" ∧
    ((handleShort cfgEx (fun _ => 0) Store.empty "!!!!" "k" "").2.Code =
      1 ∧
    (handleShort cfgEx (fun _ => 0) Store.empty "!!!!" "k" "").1.getS
      "k" = (b64DecodeString "!!!!").1 ∧
    ((b64DecodeString "!!!!").1 = "" →
      (shortToLong
        (handleShort cfgEx (fun _ => 0) Store.empty "!!!!" "k" "").1
        "k").2 = "")) :=
  ⟨by decide, by decide, by decide,
    undecodable_longurl_accepted cfgEx (fun _ => 0) Store.empty "!!!!"
      "k" (by decide) (by decide) (by decide)⟩
